import Mathlib

/-!
Verification of the Finsight retrieval-fusion and agent-orchestration pipeline.

This file shallowly embeds the core of `server/app` in Lean 4:

* `services/hybrid_search.py` — reciprocal-rank fusion and the empty-list
  handling of `hybrid_search` (float scores are modelled exactly as rationals;
  Python dicts are modelled as insertion-ordered association lists, and
  Python's stable `sorted` as a stable insertion sort);
* `services/reranker.py` — `rerank_chunks` with its no-op, failure-fallback
  and empty-input paths (the external Cohere call is a parameter);
* `agents/*.py` and `agents/supervisor.py` — the five agent node functions
  and the compiled conditional-edge workflow (each LLM call is a parameter of
  type `Except String String`: an exception or the returned content);
* `api/chat.py` — the post-streaming tail of `event_generator` that runs the
  reflection agent and decides whether to emit a disclaimer chunk
  (`reflection_agent` mutates the Python state dict in place and returns it,
  so `final_state` and `current_state` alias the same dict; the embedding
  makes that aliasing explicit);
* `services/redis_cache.py` — cache key derivation (with a full SHA-256 over
  natural numbers, faithful to `hashlib.sha256`) and the get/set/invalidate
  methods over a Redis client modelled as an association-list store with
  failure flags (a raised `redis` exception is an `Except.error`, which the
  methods catch exactly where the source has `try/except`).
-/

/-- A retrieved document fragment, as carried through the pipeline.  Only the
fields the verified properties touch are modelled; the remaining metadata
fields (`document_id`, `page_number`, `section_title`, ...) travel unchanged
through every function modelled here. -/
structure Chunk where
  id : String
  content : String
  similarity : Option ℚ
  relevance_score : Option ℚ
  rrf_score : Option ℚ
deriving DecidableEq, Repr, Inhabited

/-- The ids of a list of chunks, in order. -/
def idsOf (l : List Chunk) : List String := l.map Chunk.id

/-! ## Reranker (`services/reranker.py`, `rerank_chunks`) -/

/-- Errors `rerank_chunks` can raise: the `ValueError("cant rerank empty
chunks")` guard, and the `IndexError` that `chunks[result.index]` would raise
if the external call returned an out-of-range index. -/
inductive RerankError where
  | emptyInput
  | indexOutOfRange
deriving DecidableEq, Repr

/-- `chunk["relevance_score"] = chunk.get("similarity", 0.0)`. -/
def setRelevance (c : Chunk) : Chunk :=
  { c with relevance_score := some (c.similarity.getD 0) }

/-- The loop building `reranked_chunks` from `response.results`: each result
is an `(index, relevance_score)` pair and `chunks[result.index]` is copied
with the new relevance score. An out-of-range index raises. -/
def applyRerankResults (chunks : List Chunk) : List (ℕ × ℚ) → Except RerankError (List Chunk)
  | [] => .ok []
  | (i, s) :: rest =>
    match chunks[i]? with
    | none => .error .indexOutOfRange
    | some c =>
      (applyRerankResults chunks rest).map
        (fun l => { c with relevance_score := some s } :: l)

/-- `rerank_chunks(query, chunks, top_n)`.  The external Cohere call is the
parameter `callResult`: `.error e` models the call raising an exception
(which the source catches), `.ok results` models `response.results`.  The
query string only feeds the external call, so it does not appear. -/
def rerank_chunks (callResult : Except String (List (ℕ × ℚ)))
    (chunks : List Chunk) (top_n : ℕ) : Except RerankError (List Chunk) :=
  if chunks = [] then .error .emptyInput
  else if chunks.length ≤ top_n then .ok (chunks.map setRelevance)
  else
    match callResult with
    | .error _ => .ok ((chunks.take top_n).map setRelevance)
    | .ok results => applyRerankResults chunks results

/-! ## Reciprocal-rank fusion (`services/hybrid_search.py`) -/

/-- Reading a Python dict of scores: `scores.get(cid, 0)` over an
insertion-ordered association list. -/
def lookupScore (d : List (String × ℚ)) (cid : String) : ℚ :=
  match d.find? (fun p => p.1 = cid) with
  | some p => p.2
  | none => 0

/-- `scores[cid] = scores.get(cid, 0) + inc` on an insertion-ordered dict:
update the existing entry in place, or append a fresh one. -/
def updateScore : List (String × ℚ) → String → ℚ → List (String × ℚ)
  | [], cid, inc => [(cid, inc)]
  | p :: ps, cid, inc =>
    if p.1 = cid then (p.1, p.2 + inc) :: ps
    else p :: updateScore ps cid inc

/-- One of the two `for rank, chunk in enumerate(...)` loops accumulating
score contributions `w * (1 / (k + rank + 1))`; `r` is the running rank. -/
def addRanked (w : ℚ) (k : ℕ) : ℕ → List Chunk → List (String × ℚ) → List (String × ℚ)
  | _, [], d => d
  | r, c :: cs, d =>
    addRanked w k (r + 1) cs (updateScore d c.id (w * (1 / ((k : ℚ) + (r : ℚ) + 1))))

/-- `chunk_data[chunk_id] = chunk` (unconditional dict assignment, used in the
vector loop). -/
def assignData : List (String × Chunk) → Chunk → List (String × Chunk)
  | [], c => [(c.id, c)]
  | p :: ps, c =>
    if p.1 = c.id then (p.1, c) :: ps
    else p :: assignData ps c

/-- `if chunk_id not in chunk_data: chunk_data[chunk_id] = chunk` (the BM25
loop only records ids the vector loop has not seen). -/
def assignDataIfNew (d : List (String × Chunk)) (c : Chunk) : List (String × Chunk) :=
  if d.any (fun p => p.1 = c.id) then d else d ++ [(c.id, c)]

/-- The vector loop over `chunk_data`. -/
def addDataAll : List Chunk → List (String × Chunk) → List (String × Chunk)
  | [], d => d
  | c :: cs, d => addDataAll cs (assignData d c)

/-- The BM25 loop over `chunk_data`. -/
def addDataNew : List Chunk → List (String × Chunk) → List (String × Chunk)
  | [], d => d
  | c :: cs, d => addDataNew cs (assignDataIfNew d c)

/-- Reading `chunk_data[cid]`; every id looked up is present, so the default
is never reached on the paths the code takes. -/
def dataLookup (d : List (String × Chunk)) (cid : String) : Chunk :=
  match d.find? (fun p => p.1 = cid) with
  | some p => p.2
  | none => default

/-- Stable insert for descending sort by score: an (earlier) element is
placed before the first element whose score is less than or equal to its
own, matching the stability of Python's `sorted(..., reverse=True)`. -/
def insertDesc (x : String × ℚ) : List (String × ℚ) → List (String × ℚ)
  | [] => [x]
  | y :: ys => if y.2 ≤ x.2 then x :: y :: ys else y :: insertDesc x ys

/-- `sorted(scores.keys(), key=lambda x: scores[x], reverse=True)` paired with
the score of each key: a stable descending sort of the dict entries. -/
def sortDesc : List (String × ℚ) → List (String × ℚ)
  | [] => []
  | x :: xs => insertDesc x (sortDesc xs)

/-- The score dict built by `reciprocal_rank_fusion`: the vector loop runs
first with weight `vector_weight`, then the BM25 loop with weight
`1 - vector_weight`.  (The source builds `scores` and `chunk_data` in the
same two passes; the two dicts are independent, so they are split here.) -/
def rrfScores (vector_results bm25_results : List Chunk)
    (vector_weight : ℚ) (k : ℕ) : List (String × ℚ) :=
  addRanked (1 - vector_weight) k 0 bm25_results
    (addRanked vector_weight k 0 vector_results [])

/-- The `chunk_data` dict built by `reciprocal_rank_fusion`. -/
def rrfData (vector_results bm25_results : List Chunk) : List (String × Chunk) :=
  addDataNew bm25_results (addDataAll vector_results [])

/-- `reciprocal_rank_fusion(vector_results, bm25_results, vector_weight, k)`:
fused scores, ids sorted descending by score, and each output chunk is the
`chunk_data` entry with `rrf_score` attached. -/
def reciprocal_rank_fusion (vector_results bm25_results : List Chunk)
    (vector_weight : ℚ) (k : ℕ) : List Chunk :=
  let scores := rrfScores vector_results bm25_results vector_weight k
  let chunk_data := rrfData vector_results bm25_results
  (sortDesc scores).map
    (fun p => { dataLookup chunk_data p.1 with rrf_score := some p.2 })

/-- The combination step of `hybrid_search` (lines 113–123): the external
embedding, vector search and BM25 scoring have produced `vector_results` and
`bm25_results`; an empty list on either side bypasses fusion.  The final
metadata enrichment is an external DB join that only attaches a
`document_name` field, preserving ids, order and length, so it is not part
of the model. -/
def hybrid_search_combined (vector_results bm25_results : List Chunk)
    (top_k : ℕ) (vector_weight : ℚ) : List Chunk :=
  if vector_results = [] then bm25_results.take top_k
  else if bm25_results = [] then vector_results.take top_k
  else (reciprocal_rank_fusion vector_results bm25_results vector_weight 60).take top_k

/-! ## Dictionary and fold lemmas for the fusion proof -/

/-- The keys of an association-list dict, in insertion order. -/
def keysOf {α : Type} (d : List (String × α)) : List String := d.map Prod.fst

theorem lookupScore_cons (p : String × ℚ) (ps : List (String × ℚ)) (x : String) :
    lookupScore (p :: ps) x = if p.1 = x then p.2 else lookupScore ps x := by
  by_cases h : p.1 = x <;> simp [lookupScore, List.find?, h]

theorem lookupScore_updateScore (d : List (String × ℚ)) (cid x : String) (inc : ℚ) :
    lookupScore (updateScore d cid inc) x
      = lookupScore d x + (if cid = x then inc else 0) := by
  induction d with
  | nil =>
    simp only [updateScore, lookupScore_cons, lookupScore]
    by_cases h : cid = x
    · simp [h]
    · simp [h, fun hc : x = cid => h hc.symm]
  | cons p ps ih =>
    by_cases h : p.1 = cid
    · rw [updateScore, if_pos h, lookupScore_cons, lookupScore_cons]
      by_cases hx : p.1 = x
      · rw [if_pos hx, if_pos hx, if_pos (h ▸ hx)]
      · rw [if_neg hx, if_neg hx, if_neg (fun hc : cid = x => hx (h.trans hc))]
        ring
    · rw [updateScore, if_neg h, lookupScore_cons, lookupScore_cons, ih]
      by_cases hx : p.1 = x
      · rw [if_pos hx, if_pos hx, if_neg (fun hc : cid = x => h (hx.trans hc.symm))]
        ring
      · rw [if_neg hx, if_neg hx]

theorem mem_keys_updateScore (d : List (String × ℚ)) (cid x : String) (inc : ℚ) :
    x ∈ keysOf (updateScore d cid inc) ↔ x ∈ keysOf d ∨ x = cid := by
  induction d with
  | nil => simp [updateScore, keysOf]
  | cons p ps ih =>
    simp only [keysOf, List.map_cons, List.mem_cons] at ih ⊢
    by_cases h : p.1 = cid
    · rw [updateScore, if_pos h, List.map_cons, List.mem_cons, ← h]
      tauto
    · rw [updateScore, if_neg h, List.map_cons, List.mem_cons, ih]
      tauto

theorem nodup_keys_updateScore (d : List (String × ℚ)) (cid : String) (inc : ℚ)
    (h : (keysOf d).Nodup) : (keysOf (updateScore d cid inc)).Nodup := by
  induction d with
  | nil => simp [updateScore, keysOf]
  | cons p ps ih =>
    simp only [keysOf, List.map_cons, List.nodup_cons] at h
    by_cases hp : p.1 = cid
    · rw [updateScore, if_pos hp]
      simpa [keysOf] using h
    · rw [updateScore, if_neg hp]
      simp only [keysOf, List.map_cons, List.nodup_cons]
      refine ⟨fun hc => ?_, ih h.2⟩
      rcases (mem_keys_updateScore ps cid p.1 inc).mp hc with hy | hy
      · exact h.1 hy
      · exact hp hy

/-- Per-rank score contribution that a single enumerate-loop starting at rank
`r` adds for the id `x` (summing duplicates, as the dict accumulation does). -/
def contribSum (w : ℚ) (k : ℕ) : ℕ → List Chunk → String → ℚ
  | _, [], _ => 0
  | r, c :: cs, x =>
    (if c.id = x then w * (1 / ((k : ℚ) + (r : ℚ) + 1)) else 0) + contribSum w k (r + 1) cs x

theorem lookupScore_addRanked (w : ℚ) (k : ℕ) (cs : List Chunk) :
    ∀ (r : ℕ) (d : List (String × ℚ)) (x : String),
      lookupScore (addRanked w k r cs d) x = lookupScore d x + contribSum w k r cs x := by
  induction cs with
  | nil => intro r d x; simp [addRanked, contribSum]
  | cons c cs ih =>
    intro r d x
    rw [addRanked, ih, lookupScore_updateScore, contribSum]
    ring

theorem mem_keys_addRanked (w : ℚ) (k : ℕ) (cs : List Chunk) :
    ∀ (r : ℕ) (d : List (String × ℚ)) (x : String),
      x ∈ keysOf (addRanked w k r cs d) ↔ x ∈ keysOf d ∨ x ∈ idsOf cs := by
  induction cs with
  | nil => intro r d x; simp [addRanked, idsOf]
  | cons c cs ih =>
    intro r d x
    rw [addRanked, ih, mem_keys_updateScore]
    simp only [idsOf, List.map_cons, List.mem_cons]
    tauto

theorem nodup_keys_addRanked (w : ℚ) (k : ℕ) (cs : List Chunk) :
    ∀ (r : ℕ) (d : List (String × ℚ)), (keysOf d).Nodup →
      (keysOf (addRanked w k r cs d)).Nodup := by
  induction cs with
  | nil => intro r d h; simpa [addRanked] using h
  | cons c cs ih =>
    intro r d h
    exact ih _ _ (nodup_keys_updateScore _ _ _ h)

/-- The 0-based position of an id in a list of ids, `None` when absent: the
"rank" of the specification. -/
def rankIn : List String → String → Option ℕ
  | [], _ => none
  | i :: is, x => if i = x then some 0 else (rankIn is x).map (fun n => n + 1)

/-- The score contribution of one ranked list according to the specification
sentence: `weight / (k + rank + 1)` at the id's 0-based rank, zero when the
id is absent from the list. -/
def specContribution (l : List Chunk) (w : ℚ) (k : ℕ) (cid : String) : ℚ :=
  match rankIn (idsOf l) cid with
  | some r => w * (1 / ((k : ℚ) + (r : ℚ) + 1))
  | none => 0

theorem contribSum_of_not_mem (w : ℚ) (k : ℕ) (cs : List Chunk) (x : String)
    (hx : x ∉ idsOf cs) : ∀ r, contribSum w k r cs x = 0 := by
  induction cs with
  | nil => intro r; rfl
  | cons c cs ih =>
    intro r
    simp only [idsOf, List.map_cons, List.mem_cons, not_or] at hx
    rw [contribSum, if_neg (fun h => hx.1 h.symm), ih (by simpa [idsOf] using hx.2)]
    ring

theorem contribSum_eq_rank (w : ℚ) (k : ℕ) (cs : List Chunk) (x : String)
    (h : (idsOf cs).Nodup) :
    ∀ r, contribSum w k r cs x
      = match rankIn (idsOf cs) x with
        | some i => w * (1 / ((k : ℚ) + ((r + i : ℕ) : ℚ) + 1))
        | none => 0 := by
  induction cs with
  | nil => intro r; rfl
  | cons c cs ih =>
    intro r
    simp only [idsOf, List.map_cons, List.nodup_cons] at h
    by_cases hc : c.id = x
    · have hnot : x ∉ idsOf cs := by
        intro hmem
        exact h.1 (hc ▸ hmem)
      rw [contribSum, if_pos hc, contribSum_of_not_mem w k cs x hnot]
      simp only [idsOf, List.map_cons, rankIn, if_pos hc]
      push_cast
      ring
    · rw [contribSum, if_neg hc, ih (by simpa [idsOf] using h.2)]
      have hrw : rankIn (idsOf (c :: cs)) x = (rankIn (idsOf cs) x).map (fun n => n + 1) := by
        simp [idsOf, rankIn, hc]
      rw [hrw]
      rcases hrk : rankIn (idsOf cs) x with _ | i
      · simp [hrk]
      · simp only [hrk]
        simp only [Option.map]
        push_cast
        ring

theorem specContribution_eq (l : List Chunk) (w : ℚ) (k : ℕ) (x : String)
    (h : (idsOf l).Nodup) : contribSum w k 0 l x = specContribution l w k x := by
  rw [contribSum_eq_rank w k l x h 0, specContribution]
  rcases rankIn (idsOf l) x with _ | i
  · rfl
  · simp

theorem lookupScore_rrfScores (vec lex : List Chunk) (w : ℚ) (k : ℕ)
    (hv : (idsOf vec).Nodup) (hl : (idsOf lex).Nodup) (x : String) :
    lookupScore (rrfScores vec lex w k) x
      = specContribution vec w k x + specContribution lex (1 - w) k x := by
  rw [rrfScores, lookupScore_addRanked, lookupScore_addRanked,
      specContribution_eq _ _ _ _ hv, specContribution_eq _ _ _ _ hl]
  simp [lookupScore]

theorem mem_keys_rrfScores (vec lex : List Chunk) (w : ℚ) (k : ℕ) (x : String) :
    x ∈ keysOf (rrfScores vec lex w k) ↔ x ∈ idsOf vec ∨ x ∈ idsOf lex := by
  rw [rrfScores, mem_keys_addRanked, mem_keys_addRanked]
  simp [keysOf]

theorem nodup_keys_rrfScores (vec lex : List Chunk) (w : ℚ) (k : ℕ) :
    (keysOf (rrfScores vec lex w k)).Nodup := by
  exact nodup_keys_addRanked _ _ _ _ _ (nodup_keys_addRanked _ _ _ _ _ (by simp [keysOf]))

/-- Every entry of `chunk_data` is stored under its own chunk id. -/
def dataInv (d : List (String × Chunk)) : Prop := ∀ p ∈ d, p.1 = p.2.id

theorem dataInv_assignData (d : List (String × Chunk)) (c : Chunk)
    (h : dataInv d) : dataInv (assignData d c) := by
  induction d with
  | nil =>
    intro p hp
    simp only [assignData, List.mem_singleton] at hp
    simp [hp]
  | cons q qs ih =>
    intro p hp
    by_cases hq : q.1 = c.id
    · rw [assignData, if_pos hq] at hp
      rcases List.mem_cons.mp hp with rfl | hmem
      · exact hq
      · exact h p (List.mem_cons_of_mem _ hmem)
    · rw [assignData, if_neg hq] at hp
      rcases List.mem_cons.mp hp with rfl | hmem
      · exact h p (List.mem_cons_self p qs)
      · exact ih (fun r hr => h r (List.mem_cons_of_mem _ hr)) p hmem

theorem dataInv_assignDataIfNew (d : List (String × Chunk)) (c : Chunk)
    (h : dataInv d) : dataInv (assignDataIfNew d c) := by
  rw [assignDataIfNew]
  by_cases hc : d.any (fun p => p.1 = c.id)
  · rwa [if_pos hc]
  · rw [if_neg hc]
    intro p hp
    rcases List.mem_append.mp hp with hmem | hmem
    · exact h p hmem
    · simp only [List.mem_singleton] at hmem
      simp [hmem]

theorem dataInv_addDataAll (cs : List Chunk) :
    ∀ d, dataInv d → dataInv (addDataAll cs d) := by
  induction cs with
  | nil => intro d h; exact h
  | cons c cs ih => intro d h; exact ih _ (dataInv_assignData d c h)

theorem dataInv_addDataNew (cs : List Chunk) :
    ∀ d, dataInv d → dataInv (addDataNew cs d) := by
  induction cs with
  | nil => intro d h; exact h
  | cons c cs ih => intro d h; exact ih _ (dataInv_assignDataIfNew d c h)

theorem mem_keys_assignData (d : List (String × Chunk)) (c : Chunk) (x : String) :
    x ∈ keysOf (assignData d c) ↔ x ∈ keysOf d ∨ x = c.id := by
  induction d with
  | nil => simp [assignData, keysOf]
  | cons q qs ih =>
    simp only [keysOf, List.map_cons, List.mem_cons] at ih ⊢
    by_cases hq : q.1 = c.id
    · rw [assignData, if_pos hq, List.map_cons, List.mem_cons, ← hq]
      tauto
    · rw [assignData, if_neg hq, List.map_cons, List.mem_cons, ih]
      tauto

theorem mem_keys_assignDataIfNew (d : List (String × Chunk)) (c : Chunk) (x : String) :
    x ∈ keysOf (assignDataIfNew d c) ↔ x ∈ keysOf d ∨ x = c.id := by
  rw [assignDataIfNew]
  by_cases hc : d.any (fun p => p.1 = c.id)
  · rw [if_pos hc]
    rcases List.any_eq_true.mp hc with ⟨p, hp, hpc⟩
    have : c.id ∈ keysOf d := by
      simp only [keysOf, List.mem_map]
      exact ⟨p, hp, of_decide_eq_true hpc⟩
    constructor
    · exact Or.inl
    · rintro (hm | rfl)
      · exact hm
      · exact this
  · rw [if_neg hc]
    simp [keysOf]

theorem mem_keys_addDataAll (cs : List Chunk) :
    ∀ (d : List (String × Chunk)) (x : String),
      x ∈ keysOf (addDataAll cs d) ↔ x ∈ keysOf d ∨ x ∈ idsOf cs := by
  induction cs with
  | nil => intro d x; simp [addDataAll, idsOf]
  | cons c cs ih =>
    intro d x
    rw [addDataAll, ih, mem_keys_assignData]
    simp only [idsOf, List.map_cons, List.mem_cons]
    tauto

theorem mem_keys_addDataNew (cs : List Chunk) :
    ∀ (d : List (String × Chunk)) (x : String),
      x ∈ keysOf (addDataNew cs d) ↔ x ∈ keysOf d ∨ x ∈ idsOf cs := by
  induction cs with
  | nil => intro d x; simp [addDataNew, idsOf]
  | cons c cs ih =>
    intro d x
    rw [addDataNew, ih, mem_keys_assignDataIfNew]
    simp only [idsOf, List.map_cons, List.mem_cons]
    tauto

theorem dataLookup_id (d : List (String × Chunk)) (hinv : dataInv d) (x : String)
    (hx : x ∈ keysOf d) : (dataLookup d x).id = x := by
  induction d with
  | nil => simp [keysOf] at hx
  | cons q qs ih =>
    by_cases hq : q.1 = x
    · have : (dataLookup (q :: qs) x) = q.2 := by
        simp [dataLookup, List.find?, hq]
      rw [this, ← hinv q (List.mem_cons_self q qs), hq]
    · have : (dataLookup (q :: qs) x) = dataLookup qs x := by
        simp [dataLookup, List.find?, hq]
      rw [this]
      refine ih (fun r hr => hinv r (List.mem_cons_of_mem _ hr)) ?_
      simp only [keysOf, List.map_cons, List.mem_cons] at hx
      rcases hx with rfl | hx
      · exact absurd rfl hq
      · exact hx

theorem mem_keys_rrfData (vec lex : List Chunk) (x : String) :
    x ∈ keysOf (rrfData vec lex) ↔ x ∈ idsOf vec ∨ x ∈ idsOf lex := by
  rw [rrfData, mem_keys_addDataNew, mem_keys_addDataAll]
  simp only [keysOf, List.map_nil, List.not_mem_nil, false_or]

theorem dataInv_rrfData (vec lex : List Chunk) : dataInv (rrfData vec lex) := by
  exact dataInv_addDataNew _ _ (dataInv_addDataAll _ _ (fun p hp => by simp at hp))

/-- A dict entry's value is what lookup returns, when keys are unique. -/
theorem lookupScore_of_mem (d : List (String × ℚ)) (hd : (keysOf d).Nodup)
    (p : String × ℚ) (hp : p ∈ d) : lookupScore d p.1 = p.2 := by
  induction d with
  | nil => simp at hp
  | cons q qs ih =>
    simp only [keysOf, List.map_cons, List.nodup_cons] at hd
    rcases List.mem_cons.mp hp with rfl | hmem
    · simp [lookupScore_cons]
    · have hq : ¬ q.1 = p.1 := by
        intro hc
        exact hd.1 (hc ▸ (by simp only [keysOf, List.mem_map]; exact ⟨p, hmem, rfl⟩))
      rw [lookupScore_cons, if_neg hq]
      exact ih hd.2 hmem

/-! ## Sorting lemmas -/

theorem insertDesc_perm (x : String × ℚ) (l : List (String × ℚ)) :
    (insertDesc x l).Perm (x :: l) := by
  induction l with
  | nil => rfl
  | cons y ys ih =>
    rw [insertDesc]
    by_cases h : y.2 ≤ x.2
    · rw [if_pos h]
    · rw [if_neg h]
      exact (ih.cons y).trans (List.Perm.swap x y ys)

theorem sortDesc_perm (l : List (String × ℚ)) : (sortDesc l).Perm l := by
  induction l with
  | nil => rfl
  | cons x xs ih => exact (insertDesc_perm x (sortDesc xs)).trans (ih.cons x)

theorem pairwise_insertDesc (x : String × ℚ) (l : List (String × ℚ))
    (h : l.Pairwise (fun a b => b.2 ≤ a.2)) :
    (insertDesc x l).Pairwise (fun a b => b.2 ≤ a.2) := by
  induction l with
  | nil => simp [insertDesc]
  | cons y ys ih =>
    rw [List.pairwise_cons] at h
    rw [insertDesc]
    by_cases hc : y.2 ≤ x.2
    · rw [if_pos hc]
      refine List.Pairwise.cons ?_ (List.Pairwise.cons h.1 h.2)
      intro z hz
      rcases List.mem_cons.mp hz with rfl | hmem
      · exact hc
      · exact le_trans (h.1 z hmem) hc
    · rw [if_neg hc]
      refine List.Pairwise.cons ?_ (ih h.2)
      intro z hz
      have hz2 : z = x ∨ z ∈ ys := List.mem_cons.mp ((insertDesc_perm x ys).mem_iff.mp hz)
      rcases hz2 with rfl | hmem
      · exact le_of_lt (lt_of_not_le hc)
      · exact h.1 z hmem

theorem pairwise_sortDesc (l : List (String × ℚ)) :
    (sortDesc l).Pairwise (fun a b => b.2 ≤ a.2) := by
  induction l with
  | nil => simp [sortDesc]
  | cons x xs ih => exact pairwise_insertDesc x (sortDesc xs) ih

/-! ## Claim theorems: fusion and reranker -/

/-- Vector-list chunk A with similarity 0.9 (the specification example). -/
def chunkA : Chunk := ⟨"A", "alpha", some (9/10), none, none⟩

/-- Vector-list chunk B with similarity 0.8. -/
def chunkB : Chunk := ⟨"B", "beta", some (8/10), none, none⟩

/-- Lexical-list chunk B with similarity 0.7. -/
def chunkBLex : Chunk := ⟨"B", "beta", some (7/10), none, none⟩

/-- Lexical-list chunk C with similarity 0.6. -/
def chunkC : Chunk := ⟨"C", "gamma", some (6/10), none, none⟩

/-- C1: for id-duplicate-free input lists, reciprocal-rank fusion assigns
each chunk id the fused score `w/(k+rank+1)` from the vector list plus
`(1-w)/(k+rank+1)` from the lexical list, where `rank` is the id's 0-based
position in the respective list and absence contributes zero; the output ids
are exactly the union of the two input id sets, without duplicates; fused
scores are monotonically non-increasing across the output order; and on the
concrete example (vector `[A(0.9), B(0.8)]`, lexical `[B(0.7), C(0.6)]`,
`w = 1/2`, `k = 60`) the fused order is `B, A, C`. -/
theorem reciprocal_rank_fusion_spec (vec lex : List Chunk) (w : ℚ) (k : ℕ)
    (hv : (idsOf vec).Nodup) (hl : (idsOf lex).Nodup) :
    (∀ c ∈ reciprocal_rank_fusion vec lex w k,
        c.rrf_score = some (specContribution vec w k c.id
          + specContribution lex (1 - w) k c.id)) ∧
    (∀ x, x ∈ idsOf (reciprocal_rank_fusion vec lex w k)
        ↔ x ∈ idsOf vec ∨ x ∈ idsOf lex) ∧
    (idsOf (reciprocal_rank_fusion vec lex w k)).Nodup ∧
    (reciprocal_rank_fusion vec lex w k).Pairwise
      (fun a b => b.rrf_score.getD 0 ≤ a.rrf_score.getD 0) ∧
    idsOf (reciprocal_rank_fusion [chunkA, chunkB] [chunkBLex, chunkC] (1/2) 60)
      = ["B", "A", "C"] := by
  have hsc := nodup_keys_rrfScores vec lex w k
  have hperm : (sortDesc (rrfScores vec lex w k)).Perm (rrfScores vec lex w k) :=
    sortDesc_perm _
  have hid : ∀ p ∈ sortDesc (rrfScores vec lex w k),
      (dataLookup (rrfData vec lex) p.1).id = p.1 := by
    intro p hp
    apply dataLookup_id _ (dataInv_rrfData vec lex)
    have hpk : p.1 ∈ keysOf (rrfScores vec lex w k) := by
      simp only [keysOf, List.mem_map]
      exact ⟨p, hperm.subset hp, rfl⟩
    rw [mem_keys_rrfData]
    exact (mem_keys_rrfScores vec lex w k p.1).mp hpk
  have hidseq : idsOf (reciprocal_rank_fusion vec lex w k)
      = (sortDesc (rrfScores vec lex w k)).map Prod.fst := by
    rw [reciprocal_rank_fusion, idsOf, List.map_map]
    exact List.map_eq_map_iff.mpr (fun p hp => hid p hp)
  have hpm : ((sortDesc (rrfScores vec lex w k)).map Prod.fst).Perm
      (keysOf (rrfScores vec lex w k)) := hperm.map Prod.fst
  refine ⟨?_, ?_, ?_, ?_, ?_⟩
  · intro c hc
    rw [reciprocal_rank_fusion] at hc
    rcases List.mem_map.mp hc with ⟨p, hp, rfl⟩
    have hcid : ({ dataLookup (rrfData vec lex) p.1 with
        rrf_score := some p.2 } : Chunk).id = p.1 := hid p hp
    rw [show ({ dataLookup (rrfData vec lex) p.1 with
        rrf_score := some p.2 } : Chunk).rrf_score = some p.2 from rfl, hcid]
    congr 1
    rw [← lookupScore_of_mem _ hsc p (hperm.subset hp)]
    exact lookupScore_rrfScores vec lex w k hv hl p.1
  · intro x
    rw [hidseq, hpm.mem_iff]
    exact mem_keys_rrfScores vec lex w k x
  · rw [hidseq, hpm.nodup_iff]
    exact hsc
  · rw [reciprocal_rank_fusion]
    refine List.Pairwise.map _ ?_ (pairwise_sortDesc (rrfScores vec lex w k))
    intro a b hab
    simpa using hab
  · with_unfolding_all rfl

/-- Witness for C1: the theorem applied at the specification's concrete
example lists, with both duplicate-freeness hypotheses discharged. -/
theorem reciprocal_rank_fusion_spec_witness :
    (∀ c ∈ reciprocal_rank_fusion [chunkA, chunkB] [chunkBLex, chunkC] (1/2) 60,
        c.rrf_score = some (specContribution [chunkA, chunkB] (1/2) 60 c.id
          + specContribution [chunkBLex, chunkC] (1 - 1/2) 60 c.id)) ∧
    (∀ x, x ∈ idsOf (reciprocal_rank_fusion [chunkA, chunkB] [chunkBLex, chunkC] (1/2) 60)
        ↔ x ∈ idsOf [chunkA, chunkB] ∨ x ∈ idsOf [chunkBLex, chunkC]) ∧
    (idsOf (reciprocal_rank_fusion [chunkA, chunkB] [chunkBLex, chunkC] (1/2) 60)).Nodup ∧
    (reciprocal_rank_fusion [chunkA, chunkB] [chunkBLex, chunkC] (1/2) 60).Pairwise
      (fun a b => b.rrf_score.getD 0 ≤ a.rrf_score.getD 0) ∧
    idsOf (reciprocal_rank_fusion [chunkA, chunkB] [chunkBLex, chunkC] (1/2) 60)
      = ["B", "A", "C"] :=
  reciprocal_rank_fusion_spec [chunkA, chunkB] [chunkBLex, chunkC] (1/2) 60
    (by decide) (by decide)

/-- C6: if the vector result list is empty, the combined hybrid-search result
is the lexical list truncated to `top_k` in original order; if the lexical
list is empty, it is the vector list truncated to `top_k`; if both are empty
it is empty — and each case is a total computation (no exception). -/
theorem hybrid_empty_cases_spec :
    (∀ (bm25_results : List Chunk) (top_k : ℕ) (w : ℚ),
        hybrid_search_combined [] bm25_results top_k w = bm25_results.take top_k) ∧
    (∀ (vector_results : List Chunk) (top_k : ℕ) (w : ℚ),
        hybrid_search_combined vector_results [] top_k w = vector_results.take top_k) ∧
    (∀ (top_k : ℕ) (w : ℚ), hybrid_search_combined [] [] top_k w = []) := by
  refine ⟨fun l tk w => rfl, fun v tk w => ?_, fun tk w => by simp [hybrid_search_combined]⟩
  by_cases hv : v = []
  · subst hv; rfl
  · rw [hybrid_search_combined, if_neg hv, if_pos rfl]

theorem applyRerankResults_ne_emptyInput (chunks : List Chunk) (results : List (ℕ × ℚ)) :
    applyRerankResults chunks results ≠ .error .emptyInput := by
  induction results with
  | nil => simp [applyRerankResults]
  | cons r rest ih =>
    rcases r with ⟨i, s⟩
    rw [applyRerankResults]
    rcases h : chunks[i]? with _ | c
    · simp [h]
    · rcases happ : applyRerankResults chunks rest with e | l
      · rw [happ] at ih
        simp only [h, happ, Except.map]
        exact ih
      · simp [h, happ, Except.map]

/-- C4: the reranker signals the empty-input error exactly on the empty
candidate list; and on a non-empty list longer than `top_n`, a failing
external rerank call is caught and the first `top_n` chunks are returned in
their original order with relevance equal to their prior similarity. -/
theorem rerank_failure_policy_spec (callResult : Except String (List (ℕ × ℚ)))
    (chunks : List Chunk) (top_n : ℕ) :
    (rerank_chunks callResult chunks top_n = .error .emptyInput ↔ chunks = []) ∧
    (∀ e, callResult = .error e → chunks ≠ [] → top_n < chunks.length →
        rerank_chunks callResult chunks top_n
          = .ok ((chunks.take top_n).map setRelevance)) := by
  constructor
  · constructor
    · intro h
      by_contra hne
      rw [rerank_chunks.eq_def, if_neg hne] at h
      by_cases hlen : chunks.length ≤ top_n
      · rw [if_pos hlen] at h
        exact Except.noConfusion h
      · rw [if_neg hlen] at h
        rcases callResult with e | results
        · simp at h
        · exact applyRerankResults_ne_emptyInput chunks results h
    · intro h
      rw [rerank_chunks.eq_def, if_pos h]
  · intro e he hne hlen
    rw [rerank_chunks.eq_def, if_neg hne, if_neg (not_le.mpr hlen), he]

/-- Example chunk for reranker witnesses. -/
def wChunk1 : Chunk := ⟨"c1", "one", some 3, none, none⟩

/-- Example chunk for reranker witnesses. -/
def wChunk2 : Chunk := ⟨"c2", "two", some 2, none, none⟩

/-- Example chunk for reranker witnesses. -/
def wChunk3 : Chunk := ⟨"c3", "three", some 1, none, none⟩

/-- Witness for C4: a failing call on a 3-chunk list with `top_n = 2`
returns the first two chunks with relevance set, and is not the empty-input
error. -/
theorem rerank_failure_policy_spec_witness :
    rerank_chunks (.error "timeout") [wChunk1, wChunk2, wChunk3] 2
      = .ok (([wChunk1, wChunk2, wChunk3].take 2).map setRelevance) ∧
    ¬ rerank_chunks (.error "timeout") [wChunk1, wChunk2, wChunk3] 2
        = .error .emptyInput := by
  have h := rerank_failure_policy_spec (.error "timeout") [wChunk1, wChunk2, wChunk3] 2
  refine ⟨h.2 "timeout" rfl (by decide) (by decide), fun hc => ?_⟩
  exact absurd (h.1.mp hc) (by decide)

/-- C7 counterexample: the empty candidate list has size at most `n = 5`,
but the reranker does not return it unchanged — it raises the empty-input
error, refuting the claim as stated at this input. -/
theorem rerank_noop_counterexample :
    rerank_chunks (.ok []) ([] : List Chunk) 5 = .error .emptyInput ∧
    ¬ rerank_chunks (.ok []) ([] : List Chunk) 5
        = .ok (([] : List Chunk).map setRelevance) := by
  refine ⟨rfl, fun h => ?_⟩
  rw [rerank_chunks.eq_def] at h
  simp at h

theorem setRelevance_setRelevance (c : Chunk) :
    setRelevance (setRelevance c) = setRelevance c := rfl

/-- C7 amended: for every NON-empty candidate list of size at most `top_n`,
the reranker returns the same chunks in the same order with each relevance
score set to the prior similarity, independently of the external call (the
call parameter is unused), and doing so is idempotent. -/
theorem rerank_noop_amended_spec (callResult callResult2 : Except String (List (ℕ × ℚ)))
    (chunks : List Chunk) (top_n : ℕ) (hne : chunks ≠ []) (hlen : chunks.length ≤ top_n) :
    rerank_chunks callResult chunks top_n = .ok (chunks.map setRelevance) ∧
    rerank_chunks callResult2 (chunks.map setRelevance) top_n
      = .ok (chunks.map setRelevance) := by
  constructor
  · rw [rerank_chunks.eq_def, if_neg hne, if_pos hlen]
  · have hne2 : chunks.map setRelevance ≠ [] := by
      intro hc
      exact hne (List.map_eq_nil_iff.mp hc)
    have hlen2 : (chunks.map setRelevance).length ≤ top_n := by
      rwa [List.length_map]
    rw [rerank_chunks.eq_def, if_neg hne2, if_pos hlen2, List.map_map]
    have hfun : setRelevance ∘ setRelevance = setRelevance :=
      funext setRelevance_setRelevance
    rw [hfun]

/-- Witness for C7 (amended): a 2-chunk list with `top_n = 5`, exercised with
two different external-call behaviours. -/
theorem rerank_noop_amended_spec_witness :
    rerank_chunks (.error "x") [wChunk1, wChunk2] 5
      = .ok ([wChunk1, wChunk2].map setRelevance) ∧
    rerank_chunks (.ok [(0, 1)]) ([wChunk1, wChunk2].map setRelevance) 5
      = .ok ([wChunk1, wChunk2].map setRelevance) :=
  rerank_noop_amended_spec (.error "x") (.ok [(0, 1)]) [wChunk1, wChunk2] 5
    (by decide) (by decide)

/-! ## String helpers mirroring the Python primitives used by the agents -/

/-- Whether `needle` is an initial segment of `hay` (character lists). -/
def charsLead : List Char → List Char → Bool
  | [], _ => true
  | _ :: _, [] => false
  | a :: as, b :: bs => a = b && charsLead as bs

/-- Whether `needle` occurs contiguously in `hay`: the Python `in` operator
on strings. -/
def charsWithin (needle : List Char) : List Char → Bool
  | [] => needle.isEmpty
  | b :: bs => charsLead needle (b :: bs) || charsWithin needle bs

/-- Python `needle in hay` for strings. -/
def strWithin (needle hay : String) : Bool := charsWithin needle.toList hay.toList

/-- The whitespace characters Python `str.strip()` removes (the ones that can
occur in the strings handled here). -/
def isPySpace (c : Char) : Bool :=
  c = ' ' || c = '\t' || c = '\n' || c = '\r'

/-- Python `s.strip()`. -/
def pyStrip (s : String) : String :=
  ⟨((s.toList.dropWhile isPySpace).reverse.dropWhile isPySpace).reverse⟩

/-- Left-to-right non-overlapping replacement over character lists; the fuel
starts at the length of the text, which bounds the number of steps. -/
def replaceAux (pat rep : List Char) : ℕ → List Char → List Char
  | 0, l => l
  | _, [] => []
  | fuel + 1, a :: as =>
    if charsLead pat (a :: as) && !pat.isEmpty then
      rep ++ replaceAux pat rep fuel (List.drop (pat.length - 1) as)
    else
      a :: replaceAux pat rep fuel as

/-- Python `s.replace(pat, rep)` (for the non-empty patterns used here). -/
def pyReplace (s pat rep : String) : String :=
  ⟨replaceAux pat.toList rep.toList s.toList.length s.toList⟩

/-- An apostrophe, kept out of string literals. -/
def apos : String := ⟨[Char.ofNat 39]⟩

/-! ## Agent state machine (`agents/*.py`, `agents/supervisor.py`) -/

/-- The routing decision produced by the external query router; only the
fields the orchestrator reads are modelled. -/
structure RouteInfo where
  agents_needed : List String
  complexity : String
deriving DecidableEq, Repr, Inhabited

/-- `AgentState` (agents/state.py), restricted to the fields the modelled
control flow reads or writes.  Absent dict keys read through `.get(k, "")`
are represented by the empty string / empty list defaults. -/
structure AgentState where
  question : String
  route_info : RouteInfo
  chunks : List Chunk
  web_results : List String
  research_output : String
  verification_output : String
  risk_output : String
  final_answer : String
  next_agent : String
  reflection_passed : Bool
deriving DecidableEq, Repr, Inhabited

/-- The value `research_agent` stores into `research_output`: the generation
content, or the error-annotated fallback string built in its `except` arm. -/
def researchFindings (gen : Except String String) : String :=
  match gen with
  | .ok c => c
  | .error e => "Research agent failed: " ++ e

/-- `research_agent` (agents/research.py): stores the research findings and
routes on `route_info["agents_needed"]`: verification if present, else risk
if present, else synthesis.  Prompt construction and tool formatting only
feed the external generation call and are not modelled. -/
def research_agent (gen : Except String String) (s : AgentState) : AgentState :=
  { s with
    research_output := researchFindings gen,
    next_agent :=
      if "verification" ∈ s.route_info.agents_needed then "verification"
      else if "risk" ∈ s.route_info.agents_needed then "risk"
      else "synthesis" }

/-- `verification_agent` (agents/verification.py): short-circuits to
synthesis on empty research output; otherwise stores the verification
findings (or the error fallback) and routes to risk when requested. -/
def verification_agent (gen : Except String String) (s : AgentState) : AgentState :=
  if s.research_output = "" then
    { s with
      verification_output := "No research findings to verify",
      next_agent := "synthesis" }
  else
    { s with
      verification_output :=
        match gen with
        | .ok c => c
        | .error e => "Verification failed: " ++ e,
      next_agent :=
        if "risk" ∈ s.route_info.agents_needed then "risk" else "synthesis" }

/-- `risk_agent` (agents/risk.py): short-circuits on empty research output;
always routes to synthesis. -/
def risk_agent (gen : Except String String) (s : AgentState) : AgentState :=
  if s.research_output = "" then
    { s with
      risk_output := "No research findings to analyze for risks",
      next_agent := "synthesis" }
  else
    { s with
      risk_output :=
        match gen with
        | .ok c => c
        | .error e => "Risk analysis failed: " ++ e,
      next_agent := "synthesis" }

/-- `synthesis_agent` (agents/synthesis.py): stores the combined answer (or
the error fallback).  The context assembly and response style feed only the
external generation call. -/
def synthesis_agent (gen : Except String String) (s : AgentState) : AgentState :=
  { s with
    final_answer :=
      match gen with
      | .ok c => c
      | .error e => "Synthesis failed: " ++ e,
    next_agent := "END" }

/-- The fixed message that replaces an insufficient answer in
`reflection_agent`. -/
def insufficientInfoMessage : String :=
  "I couldn" ++ apos
    ++ "t find enough information in the documents to answer this question. Please try rephrasing or upload relevant documents."

/-- `reflection_agent` (agents/reflection.py).  `evalGen` is the external
evaluation call; `.error` models a raised exception, which the source
catches.  The Python guard `not final_answer or len(final_answer) < 50` is
equivalent to `len(final_answer) < 50`, since the empty string has length
zero. -/
def reflection_agent (evalGen : Except String String) (s : AgentState) : AgentState :=
  let final_answer := s.final_answer
  if final_answer.length < 50 then
    { s with
      reflection_passed := false,
      final_answer := insufficientInfoMessage }
  else
    match evalGen with
    | .error _ => { s with reflection_passed := true }
    | .ok content =>
      let evaluation := pyStrip content
      if strWithin "APPROVED" evaluation then
        { s with reflection_passed := true }
      else if strWithin "NEEDS_DISCLAIMER" evaluation then
        { s with
          reflection_passed := true,
          final_answer := final_answer ++ "\n\n---\n*Note: "
            ++ pyStrip (pyReplace evaluation "NEEDS_DISCLAIMER:" "") ++ "*" }
      else { s with reflection_passed := true }

/-- One external generation result per agent node, for a single query run. -/
structure AgentGens where
  research : Except String String
  verification : Except String String
  risk : Except String String
  synthesis : Except String String
  reflection : Except String String

/-- Dispatch a node of the compiled `workflow` graph. -/
def runNode (g : AgentGens) (node : String) (s : AgentState) : AgentState :=
  if node = "research" then research_agent g.research s
  else if node = "verification" then verification_agent g.verification s
  else if node = "risk" then risk_agent g.risk s
  else if node = "synthesis" then synthesis_agent g.synthesis s
  else if node = "reflection" then reflection_agent g.reflection s
  else s

/-- The edges of the compiled `workflow` graph (agents/supervisor.py):
conditional edges keyed on `state["next_agent"]` after research,
verification and risk; a plain edge from synthesis to reflection; reflection
ends the graph.  `none` is both the terminal and the error on a routing key
missing from the edge map. -/
def nextNode (node : String) (s : AgentState) : Option String :=
  if node = "research" then
    if s.next_agent = "verification" ∨ s.next_agent = "risk" ∨ s.next_agent = "synthesis"
    then some s.next_agent else none
  else if node = "verification" then
    if s.next_agent = "risk" ∨ s.next_agent = "synthesis"
    then some s.next_agent else none
  else if node = "risk" then
    if s.next_agent = "synthesis" then some "synthesis" else none
  else if node = "synthesis" then some "reflection"
  else none

/-- Run the graph from a node, collecting the visited node names; the fuel
strictly bounds the path length (the graph is acyclic with at most five
nodes on any path). -/
def runFrom (g : AgentGens) : ℕ → String → AgentState → List String × AgentState
  | 0, _, s => ([], s)
  | fuel + 1, node, s =>
    let s2 := runNode g node s
    match nextNode node s2 with
    | none => ([node], s2)
    | some nxt =>
      let rest := runFrom g fuel nxt s2
      (node :: rest.1, rest.2)

/-- Execute the compiled `workflow` from its entry point `research`. -/
def run_workflow (g : AgentGens) (s : AgentState) : List String × AgentState :=
  runFrom g 6 "research" s

/-- C2: for every routing decision, the compiled workflow visits exactly
`research`, then `verification` when requested, then `risk` when requested,
then `synthesis`, then the terminal `reflection` — under the (always true in
the source, where even the failure fallback is a non-empty string) premise
that the stored research output is non-empty.  In particular
`agents_needed = [risk]` yields research, risk, synthesis, reflection, and a
decision with neither optional agent yields research, synthesis,
reflection. -/
theorem workflow_routing_spec (g : AgentGens) (s : AgentState)
    (hr : researchFindings g.research ≠ "") :
    (run_workflow g s).1 =
      "research" ::
        ((if "verification" ∈ s.route_info.agents_needed then ["verification"] else []) ++
         (if "risk" ∈ s.route_info.agents_needed then ["risk"] else []) ++
         ["synthesis", "reflection"]) := by
  by_cases hverif : "verification" ∈ s.route_info.agents_needed <;>
    by_cases hrisk : "risk" ∈ s.route_info.agents_needed <;>
      simp [run_workflow, runFrom, runNode, nextNode, research_agent,
        verification_agent, risk_agent, synthesis_agent,
        hverif, hrisk, hr]

/-- Concrete generation results for the workflow witness. -/
def gensExample : AgentGens :=
  ⟨.ok "findings from documents", .ok "verified", .ok "risks", .ok "final answer", .ok "APPROVED"⟩

/-- A concrete initial pipeline state whose route decision requests only the
risk agent. -/
def stateExample : AgentState :=
  { question := "What is the revenue?"
    route_info := { agents_needed := ["research", "risk"], complexity := "simple" }
    chunks := []
    web_results := []
    research_output := ""
    verification_output := ""
    risk_output := ""
    final_answer := ""
    next_agent := ""
    reflection_passed := false }

/-- Witness for C2: with `agents_needed = [research, risk]` the workflow
visits research, risk, synthesis, reflection — skipping verification. -/
theorem workflow_routing_spec_witness :
    (run_workflow gensExample stateExample).1
      = ["research", "risk", "synthesis", "reflection"] := by
  have h := workflow_routing_spec gensExample stateExample (by decide)
  simpa using h

/-- C3: the reflection gate replaces the answer with the fixed
insufficient-information message and sets `reflection_passed = false`
exactly when the answer is missing or shorter than 50 characters; otherwise
`reflection_passed = true` and the answer is either left unchanged or
extended by an appended disclaimer suffix; an approving evaluation and a
failing evaluation both leave it unchanged; the short-answer path is thus
the only outright replacement. -/
theorem reflection_gate_spec (s : AgentState) (evalGen : Except String String) :
    (s.final_answer.length < 50 →
        (reflection_agent evalGen s).final_answer = insufficientInfoMessage ∧
        (reflection_agent evalGen s).reflection_passed = false) ∧
    (50 ≤ s.final_answer.length →
        (reflection_agent evalGen s).reflection_passed = true ∧
        ∃ t, (reflection_agent evalGen s).final_answer = s.final_answer ++ t) ∧
    (∀ e, evalGen = .error e → 50 ≤ s.final_answer.length →
        (reflection_agent evalGen s).final_answer = s.final_answer) ∧
    (∀ content, evalGen = .ok content → 50 ≤ s.final_answer.length →
        strWithin "APPROVED" (pyStrip content) = true →
        (reflection_agent evalGen s).final_answer = s.final_answer) ∧
    (∀ content, evalGen = .ok content → 50 ≤ s.final_answer.length →
        strWithin "APPROVED" (pyStrip content) = false →
        strWithin "NEEDS_DISCLAIMER" (pyStrip content) = true →
        (reflection_agent evalGen s).final_answer
          = s.final_answer ++ "\n\n---\n*Note: "
              ++ pyStrip (pyReplace (pyStrip content) "NEEDS_DISCLAIMER:" "") ++ "*") := by
  refine ⟨?_, ?_, ?_, ?_, ?_⟩
  · intro h
    simp [reflection_agent, h]
  · intro h
    have hlt : ¬ s.final_answer.length < 50 := not_lt.mpr h
    rcases evalGen with e | content
    · exact ⟨by simp [reflection_agent, hlt], "", by simp [reflection_agent, hlt]⟩
    · by_cases hA : strWithin "APPROVED" (pyStrip content) = true
      · exact ⟨by simp [reflection_agent, hlt, hA], "", by simp [reflection_agent, hlt, hA]⟩
      · have hA2 : strWithin "APPROVED" (pyStrip content) = false := by
          simpa using hA
        by_cases hD : strWithin "NEEDS_DISCLAIMER" (pyStrip content) = true
        · refine ⟨by simp [reflection_agent, hlt, hA2, hD],
            "\n\n---\n*Note: " ++ pyStrip (pyReplace (pyStrip content) "NEEDS_DISCLAIMER:" "") ++ "*",
            by simp [reflection_agent, hlt, hA2, hD, String.append_assoc]⟩
        · have hD2 : strWithin "NEEDS_DISCLAIMER" (pyStrip content) = false := by
            simpa using hD
          exact ⟨by simp [reflection_agent, hlt, hA2, hD2], "",
            by simp [reflection_agent, hlt, hA2, hD2]⟩
  · intro e he h
    subst he
    simp [reflection_agent, not_lt.mpr h]
  · intro content he h hA
    subst he
    simp [reflection_agent, not_lt.mpr h, hA]
  · intro content he h hA hD
    subst he
    simp [reflection_agent, not_lt.mpr h, hA, hD]

/-- A streamed answer longer than the 50-character reflection threshold. -/
def longAnswer : String :=
  "Revenue was 718.04 crore for Q2 FY25, up 23.3 percent year over year. (Page 7)"

/-- A pipeline state as it reaches reflection after streaming
`longAnswer`. -/
def reflectionState : AgentState :=
  { stateExample with final_answer := longAnswer }

/-- Witness for C3: the disclaimer path appends the note to the unchanged
answer; a failing evaluation leaves the answer unchanged; a short answer is
replaced by the fixed message. -/
theorem reflection_gate_spec_witness :
    ((reflection_agent (.ok "NEEDS_DISCLAIMER: numbers unverified") reflectionState).final_answer
        = reflectionState.final_answer ++ "\n\n---\n*Note: "
            ++ pyStrip (pyReplace (pyStrip "NEEDS_DISCLAIMER: numbers unverified")
                "NEEDS_DISCLAIMER:" "") ++ "*") ∧
    ((reflection_agent (.error "timeout") reflectionState).final_answer
        = reflectionState.final_answer) ∧
    ((reflection_agent (.ok "APPROVED") { reflectionState with final_answer := "short" }).final_answer
        = insufficientInfoMessage) := by
  have h1 := (reflection_gate_spec reflectionState
    (.ok "NEEDS_DISCLAIMER: numbers unverified")).2.2.2.2
  have h2 := (reflection_gate_spec reflectionState (.error "timeout")).2.2.1
  have h3 := (reflection_gate_spec { reflectionState with final_answer := "short" }
    (.ok "APPROVED")).1
  exact ⟨h1 "NEEDS_DISCLAIMER: numbers unverified" rfl (by decide) (by decide) (by decide),
    h2 "timeout" rfl (by decide),
    (h3 (by decide)).1⟩

/-- The tail of `event_generator` (api/chat.py): after the main answer has
been streamed, run the reflection agent and decide whether a disclaimer
chunk must additionally be emitted.  In Python, `reflection_agent` mutates
its argument dict in place and returns the same object, so after the call
`final_state` and `current_state` are one dict, and the guard's read of
`current_state["final_answer"]` observes the post-reflection value. -/
def event_generator_tail (evalGen : Except String String) (current_state : AgentState) :
    AgentState × Option String :=
  let final_state := reflection_agent evalGen current_state
  let current_state_read := final_state.final_answer
  if final_state.final_answer ≠ current_state_read then
    let disclaimer : String :=
      ⟨final_state.final_answer.toList.drop current_state_read.length⟩
    (final_state, if disclaimer = "" then none else some disclaimer)
  else (final_state, none)

/-- C9 (code bug): a disclaimer appended by reflection is never emitted as a
final extra stream chunk.  The emission guard compares `final_state` to
`current_state`, but both names alias the same mutated dict, so the guard is
always false; concretely, an evaluation returning `NEEDS_DISCLAIMER` makes
reflection append a suffix to the already-streamed answer, yet the emitted
disclaimer chunk is `none`. -/
theorem disclaimer_never_streamed :
    (∀ (evalGen : Except String String) (s : AgentState),
        (event_generator_tail evalGen s).2 = none) ∧
    (reflection_agent (.ok "NEEDS_DISCLAIMER: sources are incomplete") reflectionState).final_answer
        ≠ reflectionState.final_answer ∧
    (event_generator_tail (.ok "NEEDS_DISCLAIMER: sources are incomplete") reflectionState).2
        = none := by
  refine ⟨fun evalGen s => by simp [event_generator_tail], ?_,
    by simp [event_generator_tail]⟩
  decide

/-! ## SHA-256 (`hashlib.sha256`) over natural numbers -/

/-- The 32-bit word modulus of SHA-256. -/
def w32 : ℕ := 4294967296

/-- Right rotation of a 32-bit word. -/
def rotr (n x : ℕ) : ℕ := ((x >>> n) ||| (x <<< (32 - n))) % w32

/-- The SHA-256 choice function (with 32-bit complement). -/
def shaCh (x y z : ℕ) : ℕ := (x &&& y) ^^^ ((x ^^^ 4294967295) &&& z)

/-- The SHA-256 majority function. -/
def shaMaj (x y z : ℕ) : ℕ := (x &&& y) ^^^ (x &&& z) ^^^ (y &&& z)

/-- SHA-256 Σ₀. -/
def bigSigma0 (x : ℕ) : ℕ := rotr 2 x ^^^ rotr 13 x ^^^ rotr 22 x

/-- SHA-256 Σ₁. -/
def bigSigma1 (x : ℕ) : ℕ := rotr 6 x ^^^ rotr 11 x ^^^ rotr 25 x

/-- SHA-256 σ₀. -/
def smallSigma0 (x : ℕ) : ℕ := rotr 7 x ^^^ rotr 18 x ^^^ (x >>> 3)

/-- SHA-256 σ₁. -/
def smallSigma1 (x : ℕ) : ℕ := rotr 17 x ^^^ rotr 19 x ^^^ (x >>> 10)

/-- The 64 SHA-256 round constants. -/
def shaK : List ℕ := [1116352408, 1899447441, 3049323471, 3921009573, 961987163, 1508970993, 2453635748, 2870763221, 3624381080, 310598401, 607225278, 1426881987, 1925078388, 2162078206, 2614888103, 3248222580, 3835390401, 4022224774, 264347078, 604807628, 770255983, 1249150122, 1555081692, 1996064986, 2554220882, 2821834349, 2952996808, 3210313671, 3336571891, 3584528711, 113926993, 338241895, 666307205, 773529912, 1294757372, 1396182291, 1695183700, 1986661051, 2177026350, 2456956037, 2730485921, 2820302411, 3259730800, 3345764771, 3516065817, 3600352804, 4094571909, 275423344, 430227734, 506948616, 659060556, 883997877, 958139571, 1322822218, 1537002063, 1747873779, 1955562222, 2024104815, 2227730452, 2361852424, 2428436474, 2756734187, 3204031479, 3329325298]

/-- The SHA-256 initial hash state. -/
def shaH0 : List ℕ := [1779033703, 3144134277, 1013904242, 2773480762, 1359893119, 2600822924, 528734635, 1541459225]

/-- The 8-byte big-endian encoding of the message bit length. -/
def lengthBytes (n : ℕ) : List ℕ :=
  [(n >>> 56) % 256, (n >>> 48) % 256, (n >>> 40) % 256, (n >>> 32) % 256,
   (n >>> 24) % 256, (n >>> 16) % 256, (n >>> 8) % 256, n % 256]

/-- SHA-256 padding: append `0x80`, zero bytes to 56 mod 64, then the bit
length. -/
def sha256pad (msg : List ℕ) : List ℕ :=
  msg ++ 128 :: List.replicate ((119 - msg.length % 64) % 64) 0
    ++ lengthBytes (8 * msg.length)

/-- Group bytes into big-endian 32-bit words. -/
def bytesToWords : List ℕ → List ℕ
  | a :: b :: c :: d :: rest => (((a * 256 + b) * 256 + c) * 256 + d) :: bytesToWords rest
  | _ => []

/-- Extend the 16 block words to the 64-word message schedule (fuel 48). -/
def extendSchedule : ℕ → List ℕ → List ℕ
  | 0, ws => ws
  | fuel + 1, ws =>
    let n := ws.length
    let wi := (smallSigma1 (ws.getD (n - 2) 0) + ws.getD (n - 7) 0
        + smallSigma0 (ws.getD (n - 15) 0) + ws.getD (n - 16) 0) % w32
    extendSchedule fuel (ws ++ [wi])

/-- The eight SHA-256 working variables. -/
structure ShaState where
  a : ℕ
  b : ℕ
  c : ℕ
  d : ℕ
  e : ℕ
  f : ℕ
  g : ℕ
  h : ℕ

/-- One round of the SHA-256 compression function, consuming a
(constant, schedule-word) pair. -/
def compressRound (st : ShaState) (kw : ℕ × ℕ) : ShaState :=
  let t1 := (st.h + bigSigma1 st.e + shaCh st.e st.f st.g + kw.1 + kw.2) % w32
  let t2 := (bigSigma0 st.a + shaMaj st.a st.b st.c) % w32
  ⟨(t1 + t2) % w32, st.a, st.b, st.c, (st.d + t1) % w32, st.e, st.f, st.g⟩

/-- Compress one 64-byte block into the running hash state. -/
def processBlock (hs : List ℕ) (block : List ℕ) : List ℕ :=
  let ws := extendSchedule 48 (bytesToWords block)
  let st0 : ShaState := ⟨hs.getD 0 0, hs.getD 1 0, hs.getD 2 0, hs.getD 3 0,
      hs.getD 4 0, hs.getD 5 0, hs.getD 6 0, hs.getD 7 0⟩
  let stf := (shaK.zip ws).foldl compressRound st0
  [(hs.getD 0 0 + stf.a) % w32, (hs.getD 1 0 + stf.b) % w32,
   (hs.getD 2 0 + stf.c) % w32, (hs.getD 3 0 + stf.d) % w32,
   (hs.getD 4 0 + stf.e) % w32, (hs.getD 5 0 + stf.f) % w32,
   (hs.getD 6 0 + stf.g) % w32, (hs.getD 7 0 + stf.h) % w32]

/-- Split the padded message into 64-byte blocks; the fuel bounds the block
count. -/
def toBlocks : ℕ → List ℕ → List (List ℕ)
  | 0, _ => []
  | _, [] => []
  | fuel + 1, l => l.take 64 :: toBlocks fuel (l.drop 64)

/-- The SHA-256 digest of a byte sequence, as eight 32-bit words. -/
def sha256words (msg : List ℕ) : List ℕ :=
  (toBlocks (msg.length + 1) (sha256pad msg)).foldl processBlock shaH0

/-- A lowercase hexadecimal digit. -/
def hexChar (n : ℕ) : Char :=
  if n < 10 then Char.ofNat (48 + n) else Char.ofNat (87 + n)

/-- The eight hex digits of one 32-bit word, most significant first. -/
def wordHexChars (x : ℕ) : List Char :=
  [hexChar ((x >>> 28) % 16), hexChar ((x >>> 24) % 16), hexChar ((x >>> 20) % 16),
   hexChar ((x >>> 16) % 16), hexChar ((x >>> 12) % 16), hexChar ((x >>> 8) % 16),
   hexChar ((x >>> 4) % 16), hexChar (x % 16)]

/-- `hashlib.sha256(bytes).hexdigest()`. -/
def sha256hex (msg : List ℕ) : String :=
  ⟨((sha256words msg).map wordHexChars).flatten⟩

/-- The UTF-8 bytes of a string; for the ASCII strings the cache keys handle
this equals the code points.  (The key equalities proved below factor
through string equality, so they do not depend on the byte encoding; only
the concrete counterexample digests do, and those strings are ASCII.) -/
def strBytes (s : String) : List ℕ := s.toList.map Char.toNat

/-! ## Cache key derivation and the Redis cache (`services/redis_cache.py`) -/

/-- Python `str.lower()` restricted to ASCII, the only case the cache keys
exercise. -/
def lowerChar (c : Char) : Char :=
  if 65 ≤ c.toNat ∧ c.toNat ≤ 90 then Char.ofNat (c.toNat + 32) else c

/-- Python `s.lower()`. -/
def pyLower (s : String) : String := ⟨s.toList.map lowerChar⟩

/-- Python `sep.join(parts)`. -/
def pyJoin (sep : String) : List String → String
  | [] => ""
  | [s] => s
  | s :: rest => s ++ sep ++ pyJoin sep rest

/-- `RedisCache.generate_key_hash(*args)`: join the stringified arguments
with a pipe, lowercase, SHA-256, keep the first 16 hex characters.  Every
call site passes exactly one argument. -/
def generate_key_hash (args : List String) : String :=
  ⟨(sha256hex (strBytes (pyLower (pyJoin "|" args)))).toList.take 16⟩

/-- Python `str(...)` of a list of strings, as applied to
`sorted(document_ids)` when building the key: bracketed, comma-separated,
each id in single quotes (the ids contain no quote characters). -/
def pyRepr (xs : List String) : String :=
  "[" ++ pyJoin ", " (xs.map (fun s => apos ++ s ++ apos)) ++ "]"

/-- Python code-point-lexicographic string comparison on character lists. -/
def charListLe : List Char → List Char → Bool
  | [], _ => true
  | _ :: _, [] => false
  | a :: as, b :: bs =>
    if a.toNat < b.toNat then true
    else if b.toNat < a.toNat then false
    else charListLe as bs

/-- Python `s <= t` for strings. -/
def pyStrLe (s t : String) : Bool := charListLe s.toList t.toList

/-- Python string ordering as a proposition. -/
def pyLe (s t : String) : Prop := pyStrLe s t = true

instance : DecidableRel pyLe := fun s t => by
  unfold pyLe
  infer_instance

/-- Python `sorted(xs)` for a list of strings. -/
def pySorted (xs : List String) : List String := List.insertionSort pyLe xs

theorem charToNat_inj {a b : Char} (h : a.toNat = b.toNat) : a = b := by
  rw [← Char.ofNat_toNat a, ← Char.ofNat_toNat b, h]

theorem charListLe_total : ∀ xs ys : List Char,
    charListLe xs ys = true ∨ charListLe ys xs = true := by
  intro xs
  induction xs with
  | nil => intro ys; exact Or.inl rfl
  | cons a as ih =>
    intro ys
    cases ys with
    | nil => exact Or.inr rfl
    | cons b bs =>
      rcases Nat.lt_trichotomy a.toNat b.toNat with hlt | heq | hgt
      · left
        simp [charListLe, hlt]
      · have hab : a = b := charToNat_inj heq
        subst hab
        rcases ih bs with h | h
        · left
          simpa [charListLe] using h
        · right
          simpa [charListLe] using h
      · right
        simp [charListLe, hgt]

theorem charListLe_trans : ∀ xs ys zs : List Char,
    charListLe xs ys = true → charListLe ys zs = true → charListLe xs zs = true := by
  intro xs
  induction xs with
  | nil => intro ys zs h1 h2; rfl
  | cons a as ih =>
    intro ys zs h1 h2
    cases ys with
    | nil => simp [charListLe] at h1
    | cons b bs =>
      cases zs with
      | nil => simp [charListLe] at h2
      | cons c cs =>
        rcases Nat.lt_trichotomy a.toNat b.toNat with hab | hab | hab
        · rcases Nat.lt_trichotomy b.toNat c.toNat with hbc | hbc | hbc
          · simp [charListLe, Nat.lt_trans hab hbc]
          · simp [charListLe, hbc ▸ hab]
          · rw [charListLe] at h2
            simp [Nat.lt_asymm hbc, hbc] at h2
        · have hab2 : a = b := charToNat_inj hab
          subst hab2
          rw [charListLe] at h1
          simp at h1
          rcases Nat.lt_trichotomy a.toNat c.toNat with hac | hac | hac
          · simp [charListLe, hac]
          · have hac2 : a = c := charToNat_inj hac
            subst hac2
            rw [charListLe] at h2
            simp at h2
            simp [charListLe, ih bs cs h1 h2]
          · rw [charListLe] at h2
            simp [Nat.lt_asymm hac, hac] at h2
        · rw [charListLe] at h1
          simp [Nat.lt_asymm hab, hab] at h1

theorem charListLe_antisymm : ∀ xs ys : List Char,
    charListLe xs ys = true → charListLe ys xs = true → xs = ys := by
  intro xs
  induction xs with
  | nil =>
    intro ys h1 h2
    cases ys with
    | nil => rfl
    | cons b bs => simp [charListLe] at h2
  | cons a as ih =>
    intro ys h1 h2
    cases ys with
    | nil => simp [charListLe] at h1
    | cons b bs =>
      rcases Nat.lt_trichotomy a.toNat b.toNat with hab | hab | hab
      · rw [charListLe] at h2
        simp [Nat.lt_asymm hab, hab] at h2
      · have hab2 : a = b := charToNat_inj hab
        subst hab2
        rw [charListLe] at h1 h2
        simp at h1 h2
        rw [ih bs h1 h2]
      · rw [charListLe] at h1
        simp [Nat.lt_asymm hab, hab] at h1

instance : IsTotal String pyLe :=
  ⟨fun s t => charListLe_total s.toList t.toList⟩

instance : IsTrans String pyLe :=
  ⟨fun s t u h1 h2 => charListLe_trans s.toList t.toList u.toList h1 h2⟩

instance : IsAntisymm String pyLe :=
  ⟨fun s t h1 h2 => String.ext (charListLe_antisymm s.toList t.toList h1 h2)⟩

theorem pySorted_eq_of_perm {xs ys : List String} (h : xs.Perm ys) :
    pySorted xs = pySorted ys :=
  List.eq_of_perm_of_sorted
    ((List.perm_insertionSort pyLe xs).trans (h.trans (List.perm_insertionSort pyLe ys).symm))
    (List.sorted_insertionSort pyLe xs) (List.sorted_insertionSort pyLe ys)

/-- The Redis client and its key space.  `connected` models whether
construction and `ping` succeed; each `fail*` flag makes the corresponding
backend command raise (modelled as `Except.error`, which the cache methods
catch exactly where the source has `try/except`). -/
structure RedisClient (V : Type) where
  connected : Bool
  store : List (String × V)
  failGet : Bool
  failSet : Bool
  failKeys : Bool
  failDelete : Bool

/-- `RedisCache.is_available`: `False` when the client is absent or `ping`
raises. -/
def is_available {V : Type} (c : RedisClient V) : Bool := c.connected

/-- Redis `SET`-style assignment on the key space: replace the value under
an existing key, else append the binding. -/
def storeAssign {V : Type} : List (String × V) → String → V → List (String × V)
  | [], k, v => [(k, v)]
  | p :: ps, k, v => if p.1 = k then (p.1, v) :: ps else p :: storeAssign ps k v

/-- Reading the key space. -/
def storeGet {V : Type} (store : List (String × V)) (k : String) : Option V :=
  (store.find? (fun p => p.1 = k)).map Prod.snd

/-- `self.client.get(key)`: raises when `failGet`, else the value or a
miss. -/
def kvGet {V : Type} (c : RedisClient V) (k : String) : Except String (Option V) :=
  if c.failGet then .error "connection error" else .ok (storeGet c.store k)

/-- `self.client.setex(key, ttl, value)`: raises when `failSet`, else stores
the value (the TTL only bounds the entry lifetime and is not modelled). -/
def kvSetex {V : Type} (c : RedisClient V) (k : String) (v : V) :
    Except String (RedisClient V) :=
  if c.failSet then .error "connection error"
  else .ok { c with store := storeAssign c.store k v }

/-- The glob patterns used by the cache are a literal prefix followed by
`*`; a key matches when it starts with that prefix. -/
def globMatch (pattern key : String) : Bool :=
  charsLead pattern.toList.dropLast key.toList

/-- `self.client.keys(pattern)`: raises when `failKeys`, else every key
matching the pattern. -/
def kvKeys {V : Type} (c : RedisClient V) (pattern : String) :
    Except String (List String) :=
  if c.failKeys then .error "connection error"
  else .ok ((c.store.map Prod.fst).filter (fun k => globMatch pattern k))

/-- `self.client.delete(*keys)`: raises when `failDelete`, else removes the
keys and returns how many bindings were removed. -/
def kvDelete {V : Type} (c : RedisClient V) (ks : List String) :
    Except String (RedisClient V × ℕ) :=
  if c.failDelete then .error "connection error"
  else .ok ({ c with store := c.store.filter (fun p => !(ks.contains p.1)) },
    (c.store.filter (fun p => ks.contains p.1)).length)

/-- The response-cache key `query:{user_id}:{doc_hash}:{question_hash}:response`,
with `doc_hash` derived from the sorted document-id list. -/
def queryResponseKey (user_id question : String) (document_ids : List String) : String :=
  "query:" ++ user_id ++ ":" ++ generate_key_hash [pyRepr (pySorted document_ids)]
    ++ ":" ++ generate_key_hash [question] ++ ":response"

/-- The chunk-cache key `query:{doc_hash}:{question_hash}:chunks` (no user
id). -/
def searchChunksKey (question : String) (document_ids : List String) : String :=
  "query:" ++ generate_key_hash [pyRepr (pySorted document_ids)]
    ++ ":" ++ generate_key_hash [question] ++ ":chunks"

/-- `RedisCache.get_query_response`: an unavailable backend or a raised
backend error degrades to a miss.  JSON round-tripping of the stored value
is the identity on the modelled values. -/
def get_query_response {V : Type} (c : RedisClient V) (user_id question : String)
    (document_ids : List String) : Option V :=
  if is_available c = false then none
  else
    match kvGet c (queryResponseKey user_id question document_ids) with
    | .error _ => none
    | .ok r => r

/-- `RedisCache.set_query_response`: returns the updated client and the
success flag; unavailability or a raised backend error returns `False`
without raising. -/
def set_query_response {V : Type} (c : RedisClient V) (user_id question : String)
    (document_ids : List String) (response : V) : RedisClient V × Bool :=
  if is_available c = false then (c, false)
  else
    match kvSetex c (queryResponseKey user_id question document_ids) response with
    | .error _ => (c, false)
    | .ok c2 => (c2, true)

/-- `RedisCache.get_search_chunks`. -/
def get_search_chunks {V : Type} (c : RedisClient V) (question : String)
    (document_ids : List String) : Option V :=
  if is_available c = false then none
  else
    match kvGet c (searchChunksKey question document_ids) with
    | .error _ => none
    | .ok r => r

/-- `RedisCache.set_search_chunks`. -/
def set_search_chunks {V : Type} (c : RedisClient V) (question : String)
    (document_ids : List String) (chunks : V) : RedisClient V × Bool :=
  if is_available c = false then (c, false)
  else
    match kvSetex c (searchChunksKey question document_ids) chunks with
    | .error _ => (c, false)
    | .ok c2 => (c2, true)

/-- `RedisCache.invalidate_query_cache`: delete every response-cache entry
for the user (optionally restricted to one document set) and return the
number of keys deleted; unavailability and backend errors degrade to `0`;
an empty match set returns `0` without issuing a delete. -/
def invalidate_query_cache {V : Type} (c : RedisClient V) (user_id : String)
    (document_ids : Option (List String)) : RedisClient V × ℕ :=
  if is_available c = false then (c, 0)
  else
    let pattern :=
      match document_ids with
      | some ds =>
        "query:" ++ user_id ++ ":" ++ generate_key_hash [pyRepr (pySorted ds)] ++ ":*"
      | none => "query:" ++ user_id ++ ":*"
    match kvKeys c pattern with
    | .error _ => (c, 0)
    | .ok keys =>
      if keys = [] then (c, 0)
      else
        match kvDelete c keys with
        | .error _ => (c, 0)
        | .ok r => r

theorem storeGet_storeAssign {V : Type} (store : List (String × V)) (k k2 : String) (v : V) :
    storeGet (storeAssign store k v) k2 = if k = k2 then some v else storeGet store k2 := by
  induction store with
  | nil =>
    by_cases h : k = k2
    · simp [storeAssign, storeGet, List.find?, h]
    · simp [storeAssign, storeGet, List.find?, h, fun hc : k2 = k => h hc.symm]
  | cons p ps ih =>
    by_cases hp : p.1 = k
    · rw [storeAssign, if_pos hp]
      by_cases h2 : p.1 = k2
      · simp [storeGet, List.find?, h2, hp ▸ h2]
      · have : ¬ k = k2 := fun hc => h2 (hp.symm ▸ hc ▸ rfl)
        simp [storeGet, List.find?, h2, this]
    · rw [storeAssign, if_neg hp]
      by_cases h2 : p.1 = k2
      · have : ¬ k = k2 := fun hc => hp (hc ▸ h2)
        simp [storeGet, List.find?, h2, this]
      · simp only [storeGet, List.find?]
        rw [show (decide (p.1 = k2)) = false from decide_eq_false h2]
        exact ih

/-- C5: both cache keys are derived from the SORTED document-id list, so a
`set` followed by a `get` with identical inputs returns the stored value,
and a `get` whose document-id list is any permutation of the stored one
returns the same value as the canonical order — for the response cache and
for the chunk cache. -/
theorem cache_key_order_insensitive_spec {V : Type} (c d : RedisClient V)
    (user_id question : String) (docs docs2 : List String) (v w : V)
    (hperm : docs.Perm docs2)
    (hc1 : c.connected = true) (hc2 : c.failGet = false) (hc3 : c.failSet = false)
    (hd1 : d.connected = true) (hd2 : d.failGet = false) (hd3 : d.failSet = false) :
    get_query_response (set_query_response c user_id question docs v).1
        user_id question docs = some v ∧
    get_query_response (set_query_response c user_id question docs v).1
        user_id question docs2 = some v ∧
    get_search_chunks (set_search_chunks d question docs w).1 question docs = some w ∧
    get_search_chunks (set_search_chunks d question docs w).1 question docs2 = some w := by
  have hkey : queryResponseKey user_id question docs2
      = queryResponseKey user_id question docs := by
    rw [queryResponseKey, queryResponseKey, pySorted_eq_of_perm hperm.symm]
  have hkey2 : searchChunksKey question docs2 = searchChunksKey question docs := by
    rw [searchChunksKey, searchChunksKey, pySorted_eq_of_perm hperm.symm]
  refine ⟨?_, ?_, ?_, ?_⟩ <;>
    simp [get_query_response, set_query_response, get_search_chunks, set_search_chunks,
      is_available, hc1, hc2, hc3, hd1, hd2, hd3, kvGet, kvSetex,
      hkey, hkey2, storeGet_storeAssign]

/-- Witness for C5: a healthy connected client, storing under
`["d2", "d1"]` and reading back with both that list and `["d1", "d2"]`. -/
theorem cache_key_order_insensitive_spec_witness :
    get_query_response (set_query_response
        (⟨true, [], false, false, false, false⟩ : RedisClient String)
        "u1" "what is revenue?" ["d2", "d1"] "cached answer").1
      "u1" "what is revenue?" ["d2", "d1"] = some "cached answer" ∧
    get_query_response (set_query_response
        (⟨true, [], false, false, false, false⟩ : RedisClient String)
        "u1" "what is revenue?" ["d2", "d1"] "cached answer").1
      "u1" "what is revenue?" ["d1", "d2"] = some "cached answer" ∧
    get_search_chunks (set_search_chunks
        (⟨true, [], false, false, false, false⟩ : RedisClient String)
        "what is revenue?" ["d2", "d1"] "chunks json").1
      "what is revenue?" ["d2", "d1"] = some "chunks json" ∧
    get_search_chunks (set_search_chunks
        (⟨true, [], false, false, false, false⟩ : RedisClient String)
        "what is revenue?" ["d2", "d1"] "chunks json").1
      "what is revenue?" ["d1", "d2"] = some "chunks json" :=
  cache_key_order_insensitive_spec _ _ "u1" "what is revenue?" ["d2", "d1"] ["d1", "d2"]
    "cached answer" "chunks json" (List.Perm.swap "d1" "d2" [])
    rfl rfl rfl rfl rfl rfl

/-- C8: an unreachable backend makes every cache operation degrade — gets
miss, sets return failure, invalidation returns zero — without raising; a
raised backend command degrades the same way; and invalidating when no key
matches succeeds with zero deletions. -/
theorem cache_degradation_spec {V : Type} (c : RedisClient V)
    (user_id question : String) (docs : List String) (v : V)
    (odocs : Option (List String)) :
    (c.connected = false →
        get_query_response c user_id question docs = none ∧
        set_query_response c user_id question docs v = (c, false) ∧
        get_search_chunks c question docs = none ∧
        set_search_chunks c question docs v = (c, false) ∧
        invalidate_query_cache c user_id odocs = (c, 0)) ∧
    (c.failGet = true →
        get_query_response c user_id question docs = none ∧
        get_search_chunks c question docs = none) ∧
    (c.failSet = true →
        set_query_response c user_id question docs v = (c, false) ∧
        set_search_chunks c question docs v = (c, false)) ∧
    (c.failKeys = true → invalidate_query_cache c user_id odocs = (c, 0)) ∧
    (c.failKeys = false → c.failDelete = true →
        invalidate_query_cache c user_id odocs = (c, 0)) ∧
    (c.failKeys = false →
        (∀ k ∈ c.store.map Prod.fst,
            globMatch ("query:" ++ user_id ++ ":*") k = false) →
        invalidate_query_cache c user_id none = (c, 0)) := by
  refine ⟨?_, ?_, ?_, ?_, ?_, ?_⟩
  · intro h
    refine ⟨?_, ?_, ?_, ?_, ?_⟩ <;>
      simp [get_query_response, set_query_response, get_search_chunks,
        set_search_chunks, invalidate_query_cache, is_available, h]
  · intro h
    by_cases hc : c.connected = true
    · constructor <;>
        simp [get_query_response, get_search_chunks, is_available, hc, kvGet, h]
    · have hc2 : c.connected = false := by simpa using hc
      constructor <;>
        simp [get_query_response, get_search_chunks, is_available, hc2]
  · intro h
    by_cases hc : c.connected = true
    · constructor <;>
        simp [set_query_response, set_search_chunks, is_available, hc, kvSetex, h]
    · have hc2 : c.connected = false := by simpa using hc
      constructor <;>
        simp [set_query_response, set_search_chunks, is_available, hc2]
  · intro h
    by_cases hc : c.connected = true
    · rcases odocs with _ | ds <;>
        simp [invalidate_query_cache, is_available, hc, kvKeys, h]
    · have hc2 : c.connected = false := by simpa using hc
      simp [invalidate_query_cache, is_available, hc2]
  · intro hk hd
    by_cases hc : c.connected = true
    · rcases odocs with _ | ds <;>
        simp [invalidate_query_cache, is_available, hc, kvKeys, hk, kvDelete, hd]
    · have hc2 : c.connected = false := by simpa using hc
      simp [invalidate_query_cache, is_available, hc2]
  · intro hk hmatch
    by_cases hc : c.connected = true
    · have hfil : (c.store.map Prod.fst).filter
          (fun k => globMatch ("query:" ++ user_id ++ ":*") k) = [] :=
        List.filter_eq_nil_iff.mpr (fun a ha => by simp [hmatch a ha])
      simp [invalidate_query_cache, is_available, hc, kvKeys, hk, hfil]
    · have hc2 : c.connected = false := by simpa using hc
      simp [invalidate_query_cache, is_available, hc2]

/-- Witness for C8: a disconnected client misses, refuses sets and
invalidates zero keys; a connected client with a raising `GET` misses; a
connected client with an empty key space invalidates zero keys. -/
theorem cache_degradation_spec_witness :
    get_query_response (⟨false, [], false, false, false, false⟩ : RedisClient String)
      "u1" "q" ["d1"] = none ∧
    set_query_response (⟨false, [], false, false, false, false⟩ : RedisClient String)
        "u1" "q" ["d1"] "resp"
      = (⟨false, [], false, false, false, false⟩, false) ∧
    invalidate_query_cache (⟨false, [], false, false, false, false⟩ : RedisClient String)
        "u1" none
      = (⟨false, [], false, false, false, false⟩, 0) ∧
    get_query_response (⟨true, [], true, false, false, false⟩ : RedisClient String)
      "u1" "q" ["d1"] = none ∧
    invalidate_query_cache (⟨true, [], false, false, false, false⟩ : RedisClient String)
        "u1" none
      = (⟨true, [], false, false, false, false⟩, 0) := by
  have h1 := cache_degradation_spec
    (⟨false, [], false, false, false, false⟩ : RedisClient String) "u1" "q" ["d1"] "resp" none
  have h2 := cache_degradation_spec
    (⟨true, [], true, false, false, false⟩ : RedisClient String) "u1" "q" ["d1"] "resp" none
  have h3 := cache_degradation_spec
    (⟨true, [], false, false, false, false⟩ : RedisClient String) "u1" "q" ["d1"] "resp" none
  exact ⟨(h1.1 rfl).1, (h1.1 rfl).2.1, (h1.1 rfl).2.2.2.2, (h2.2.1 rfl).1,
    h3.2.2.2.2.2 rfl (fun k hk => by simp at hk)⟩

set_option maxRecDepth 100000 in
/-- C10 counterexample: `["A", "b"]` and `["a", "B"]` differ only in letter
case, yet their derived cache keys differ — sorting happens before the
(lowercasing) hash and Python string sorting is case-sensitive, so the two
lists sort to `["A", "b"]` and `["B", "a"]`, which stringify to different
lowercased texts and hash to different digests. -/
theorem cache_key_case_counterexample :
    pyLower "A" = pyLower "a" ∧ pyLower "b" = pyLower "B" ∧
    searchChunksKey "q" ["A", "b"] ≠ searchChunksKey "q" ["a", "B"] ∧
    queryResponseKey "u" "q" ["A", "b"] ≠ queryResponseKey "u" "q" ["a", "B"] :=
  ⟨rfl, rfl, by decide, by decide⟩

theorem pyJoin_single (s : String) : pyJoin "|" [s] = s := rfl

/-- C10 amended: key derivation lowercases the joined argument string before
hashing and keeps the first 16 hex characters of the SHA-256 digest; hence
questions differing only in letter case share keys and cached values (for
both caches), and document-id lists share them whenever their SORTED
stringified forms agree up to letter case.  Because sorting precedes the
lowercasing and is case-sensitive, document-id lists differing only in
letter case can sort differently and then receive different keys, so the
claimed sharing holds for questions but not for every case-variant
document-id list. -/
theorem cache_key_case_amended_spec {V : Type} (c : RedisClient V)
    (user_id q1 q2 : String) (docs1 docs2 : List String)
    (hq : pyLower q1 = pyLower q2)
    (hd : pyLower (pyRepr (pySorted docs1)) = pyLower (pyRepr (pySorted docs2))) :
    generate_key_hash [q1] = generate_key_hash [q2] ∧
    searchChunksKey q1 docs1 = searchChunksKey q2 docs2 ∧
    queryResponseKey user_id q1 docs1 = queryResponseKey user_id q2 docs2 ∧
    get_search_chunks c q1 docs1 = get_search_chunks c q2 docs2 ∧
    get_query_response c user_id q1 docs1 = get_query_response c user_id q2 docs2 := by
  have hgen : ∀ a b : String, pyLower a = pyLower b →
      generate_key_hash [a] = generate_key_hash [b] := by
    intro a b h
    simp only [generate_key_hash, pyJoin]
    rw [h]
  have h1 := hgen q1 q2 hq
  have h2 := hgen (pyRepr (pySorted docs1)) (pyRepr (pySorted docs2)) hd
  have hk1 : searchChunksKey q1 docs1 = searchChunksKey q2 docs2 := by
    rw [searchChunksKey, searchChunksKey, h1, h2]
  have hk2 : queryResponseKey user_id q1 docs1 = queryResponseKey user_id q2 docs2 := by
    rw [queryResponseKey, queryResponseKey, h1, h2]
  refine ⟨h1, hk1, hk2, ?_, ?_⟩
  · simp only [get_search_chunks]
    rw [hk1]
  · simp only [get_query_response]
    rw [hk2]

/-- Witness for C10 (amended): case-variant questions over the same document
list share the derived key and the cache lookups. -/
theorem cache_key_case_amended_spec_witness :
    generate_key_hash ["What Is Revenue?"] = generate_key_hash ["what is revenue?"] ∧
    searchChunksKey "What Is Revenue?" ["d"]
      = searchChunksKey "what is revenue?" ["d"] ∧
    queryResponseKey "u1" "What Is Revenue?" ["d"]
      = queryResponseKey "u1" "what is revenue?" ["d"] ∧
    get_search_chunks (⟨true, [], false, false, false, false⟩ : RedisClient String)
        "What Is Revenue?" ["d"]
      = get_search_chunks (⟨true, [], false, false, false, false⟩ : RedisClient String)
        "what is revenue?" ["d"] ∧
    get_query_response (⟨true, [], false, false, false, false⟩ : RedisClient String)
        "u1" "What Is Revenue?" ["d"]
      = get_query_response (⟨true, [], false, false, false, false⟩ : RedisClient String)
        "u1" "what is revenue?" ["d"] :=
  cache_key_case_amended_spec _ "u1" "What Is Revenue?" "what is revenue?" ["d"] ["d"]
    (by decide) rfl
